import Mathlib

/-!
Verification of the closest-aircraft resolver of `src/main.c`.

The refresh cycle `fetch_and_process_data` is embedded as a pure function of
its external inputs: the outcome of the primary-feed fetch/parse, the outcome
of the enrichment fetch/parse, and the previously published state.  The C
code computes great-circle distances and bearings in double precision via
`haversine_distance` and `calculate_bearing`; the scan logic is embedded
generically in the distance function `D` and bearing function `B` (over ℚ),
so that every theorem about the selection logic holds for the actual
floating-point functions as well.  The geodesy functions themselves are
embedded separately over ℝ (the usual exact-real idealisation of `double`
arithmetic) for the numerical claims.
-/

/-- Model of `snprintf(buf, n, "%s", s)` into an `n`-byte buffer: the copy is
truncated to at most `n - 1` characters. -/
def sncopy (n : Nat) (s : String) : String := s.take (n - 1)

/-- One element of the `aircraft` array of the dump1090 feed, as probed by the
C code.  A field is `some` exactly when the corresponding `cJSON` lookup used
by `fetch_and_process_data` succeeds: for `lat`/`lon` this is
`cJSON_IsNumber`, for the string fields it is `item && item->valuestring`,
and for the numeric telemetry fields it is `item` being present. -/
structure JsonEntry where
  lat : Option ℚ
  lon : Option ℚ
  flight : Option String
  hex : Option String
  squawk : Option String
  alt_baro : Option Int
  gs : Option ℚ
  track : Option ℚ
  baro_rate : Option Int
deriving DecidableEq

/-- The `struct Aircraft` of `main.c` (the published closest-aircraft state). -/
structure Aircraft where
  flight : String
  hex : String
  squawk : String
  registration : String
  aircraft_type : String
  operator : String
  lat : ℚ
  lon : ℚ
  distance_km : ℚ
  altitude_ft : Int
  vert_rate_fpm : Int
  ground_speed_kts : ℚ
  track_deg : ℚ
  bearing_deg : ℚ
deriving DecidableEq

/-- The sentinel distance `999999.9` used to seed the running minimum and to
mark the "no aircraft" state. -/
def sentinelDist : ℚ := 9999999 / 10

/-- The zero-initialised `local_closest` of line 401:
`struct Aircraft local_closest = { .distance_km = 999999.9 };`.
C aggregate initialisation zeroes every other field, so the string buffers
are empty strings and the numeric fields are `0`. -/
def initialClosest : Aircraft :=
  { flight := "", hex := "", squawk := "", registration := "", aircraft_type := ""
    operator := "", lat := 0, lon := 0, distance_km := sentinelDist
    altitude_ft := 0, vert_rate_fpm := 0, ground_speed_kts := 0, track_deg := 0
    bearing_deg := 0 }

/-- The body of the `if (dist < local_closest.distance_km)` branch of the scan
(lines 410–433): record distance, position, bearing, and the telemetry of the
entry, substituting `"N/A"` for absent string fields and `0` for absent
numeric fields.  The buffer sizes are those of `struct Aircraft`.  The
`registration`, `aircraft_type` and `operator` fields are not written by the
loop and are carried over from the accumulator. -/
def scanUpdate (ulat ulon : ℚ) (D B : ℚ → ℚ → ℚ → ℚ → ℚ) (base : Aircraft)
    (e : JsonEntry) (la lo : ℚ) : Aircraft :=
  { distance_km := D ulat ulon la lo
    lat := la
    lon := lo
    bearing_deg := B ulat ulon la lo
    flight := sncopy 24 (e.flight.getD "N/A")
    hex := sncopy 10 (e.hex.getD "N/A")
    squawk := sncopy 6 (e.squawk.getD "N/A")
    altitude_ft := e.alt_baro.getD 0
    ground_speed_kts := e.gs.getD 0
    track_deg := e.track.getD 0
    vert_rate_fpm := e.baro_rate.getD 0
    registration := base.registration
    aircraft_type := base.aircraft_type
    operator := base.operator }

/-- One iteration of `cJSON_ArrayForEach` in `fetch_and_process_data`
(lines 405–435): entries without numeric `lat` and `lon` are skipped, and the
running minimum is replaced only on a strictly smaller distance.  The `Bool`
component is `plane_found`. -/
def scanStep (ulat ulon : ℚ) (D B : ℚ → ℚ → ℚ → ℚ → ℚ)
    (acc : Aircraft × Bool) (e : JsonEntry) : Aircraft × Bool :=
  match e.lat, e.lon with
  | some la, some lo =>
      if D ulat ulon la lo < acc.1.distance_km then
        (scanUpdate ulat ulon D B acc.1 e la lo, true)
      else acc
  | _, _ => acc

/-- The distance the scan would compute for an entry: `some` exactly when the
entry has numeric `lat` and `lon`. -/
def entryDist (ulat ulon : ℚ) (D : ℚ → ℚ → ℚ → ℚ → ℚ) (e : JsonEntry) : Option ℚ :=
  match e.lat, e.lon with
  | some la, some lo => some (D ulat ulon la lo)
  | _, _ => none

/-- The distances of the valid (coordinate-bearing) entries of a feed, in
feed order. -/
def scanDists (ulat ulon : ℚ) (D : ℚ → ℚ → ℚ → ℚ → ℚ) (l : List JsonEntry) : List ℚ :=
  l.filterMap (entryDist ulat ulon D)

/-- Outcome of the primary-feed fetch and parse, as discriminated by
`fetch_and_process_data`:
`fetchFail` is `res != CURLE_OK || chunk.size == 0` (transport error, timeout
or empty body — also covers the early-return allocation failures);
`parseFail` is `cJSON_Parse` returning `NULL`;
`noArray` is a parsed payload whose `aircraft` member is absent or not an
array; `entries l` is a payload whose `aircraft` member is an array. -/
inductive FeedResult where
  | fetchFail : FeedResult
  | parseFail : FeedResult
  | noArray : FeedResult
  | entries : List JsonEntry → FeedResult
deriving DecidableEq

/-- Outcome of the enrichment fetch and parse (lines 448–468):
`fail` is a transport failure, empty body, or `cJSON_Parse` returning `NULL`;
`noMatch` is a parsed payload whose `ac` member is absent, not an array, or
empty; `found r t o` gives the `r`, `t` and `ownOp` members of `ac[0]`
(`some` exactly when present with a string value). -/
inductive EnrichResult where
  | fail : EnrichResult
  | noMatch : EnrichResult
  | found : Option String → Option String → Option String → EnrichResult
deriving DecidableEq

/-- The enrichment writes of lines 459–464: each of `r`, `t`, `ownOp`, when
present with a string value, overwrites the corresponding field of the
state. -/
def applyEnrich (enrich : EnrichResult) (s : Aircraft) : Aircraft :=
  match enrich with
  | EnrichResult.found r t o =>
      let s1 := match r with
        | some x => { s with registration := sncopy 24 x }
        | none => s
      let s2 := match t with
        | some x => { s1 with aircraft_type := sncopy 24 x }
        | none => s1
      let s3 := match o with
        | some x => { s2 with operator := sncopy 40 x }
        | none => s2
      s3
  | _ => s

/-- The "no planes detected" reset of lines 472–479: the six text fields and
`distance_km` are overwritten, every other field of the previous state is
left as it was. -/
def noAircraftReset (prev : Aircraft) : Aircraft :=
  { prev with
    flight := "No aircraft in range"
    operator := " "
    registration := " "
    aircraft_type := " "
    hex := " "
    squawk := " "
    distance_km := sentinelDist }

/-- One call of `fetch_and_process_data` (lines 378–488) as a function from
the previous published state and the outcomes of the two network
interactions to the new published state.  `ulat`/`ulon` are
`g_user_lat`/`g_user_lon`; `D` and `B` stand for `haversine_distance` and
`calculate_bearing` applied to the observer and an entry position. -/
def fetch_and_process_data (ulat ulon : ℚ) (D B : ℚ → ℚ → ℚ → ℚ → ℚ)
    (feed : FeedResult) (enrich : EnrichResult) (prev : Aircraft) : Aircraft :=
  match feed with
  | FeedResult.fetchFail => prev
  | FeedResult.parseFail => prev
  | FeedResult.noArray => prev
  | FeedResult.entries l =>
      let scan := l.foldl (scanStep ulat ulon D B) (initialClosest, false)
      if scan.2 then
        applyEnrich enrich
          { scan.1 with registration := "N/A", aircraft_type := "N/A", operator := "N/A" }
      else
        noAircraftReset prev

/-- The successive values the enrichment block writes into the shared state
(lines 459–464), in program order. -/
def enrichWrites (s : Aircraft) (enrich : EnrichResult) : List Aircraft :=
  match enrich with
  | EnrichResult.found r t o =>
      let s1 := match r with
        | some x => { s with registration := sncopy 24 x }
        | none => s
      let s2 := match t with
        | some x => { s1 with aircraft_type := sncopy 24 x }
        | none => s1
      let s3 := match o with
        | some x => { s2 with operator := sncopy 40 x }
        | none => s2
      (match r with | some _ => [s1] | none => [])
        ++ (match t with | some _ => [s2] | none => [])
        ++ (match o with | some _ => [s3] | none => [])
  | _ => []

/-- The successive values the "no planes detected" branch writes into the
shared state, one `snprintf`/assignment at a time (lines 473–479). -/
def resetWrites (prev : Aircraft) : List Aircraft :=
  let n1 := { prev with flight := "No aircraft in range" }
  let n2 := { n1 with operator := " " }
  let n3 := { n2 with registration := " " }
  let n4 := { n3 with aircraft_type := " " }
  let n5 := { n4 with hex := " " }
  let n6 := { n5 with squawk := " " }
  let n7 := { n6 with distance_km := sentinelDist }
  [n1, n2, n3, n4, n5, n6, n7]

/-- Every value the global `g_closest_plane` takes during one call of
`fetch_and_process_data`, in program order: the struct assignment of
line 438, the three `"N/A"` defaults of lines 441–443, the enrichment writes
of lines 459–464, or the seven reset writes of lines 473–479.  Failure paths
perform no write. -/
def cycleWrites (ulat ulon : ℚ) (D B : ℚ → ℚ → ℚ → ℚ → ℚ)
    (feed : FeedResult) (enrich : EnrichResult) (prev : Aircraft) : List Aircraft :=
  match feed with
  | FeedResult.fetchFail => []
  | FeedResult.parseFail => []
  | FeedResult.noArray => []
  | FeedResult.entries l =>
      let scan := l.foldl (scanStep ulat ulon D B) (initialClosest, false)
      if scan.2 then
        let s1 := scan.1
        let s2 := { s1 with registration := "N/A" }
        let s3 := { s2 with aircraft_type := "N/A" }
        let s4 := { s3 with operator := "N/A" }
        [s1, s2, s3, s4] ++ enrichWrites s4 enrich
      else
        resetWrites prev

/-- The last element of a list of writes, or the prior value when no write
happened: the value a reader of the shared cell sees after the cycle. -/
def lastD : List Aircraft → Aircraft → Aircraft
  | [], d => d
  | a :: l, _ => lastD l a

/-- The position/telemetry half of a state: every field of `struct Aircraft`
written by the scan loop itself (everything except `registration`,
`aircraft_type` and `operator`). -/
def posFields (a : Aircraft) :
    ℚ × ℚ × ℚ × ℚ × String × String × String × Int × ℚ × ℚ × Int :=
  (a.lat, a.lon, a.distance_km, a.bearing_deg, a.flight, a.hex, a.squawk,
   a.altitude_ft, a.ground_speed_kts, a.track_deg, a.vert_rate_fpm)

/-- The 16 compass points of `track_to_direction` (line 532). -/
def directions : List String :=
  ["N", "NNE", "NE", "ENE", "E", "ESE", "SE", "SSE",
   "S", "SSW", "SW", "WSW", "W", "WNW", "NW", "NNW"]

/-- Truncation toward zero, the semantics of C's `(int)` cast from a floating
value. -/
def qtrunc (q : ℚ) : ℤ := if 0 ≤ q then ⌊q⌋ else ⌈q⌉

/-- The function `track_to_direction` of lines 531–535:
`int index = (int)((track_deg / 22.5) + 0.5) % 16; return directions[index];`.
C's `%` truncates toward zero, which is `Int.tmod`.  For a negative index the
C array access is out of bounds; the model then falls back to `"N"`. -/
def track_to_direction (track_deg : ℚ) : String :=
  directions.getD ((qtrunc (track_deg / (45 / 2) + 1 / 2)).tmod 16).toNat "N"

/-- Concrete states and feeds used to instantiate theorems with hypotheses. -/
def prev0 : Aircraft :=
  { flight := "ABC123", hex := "4010ee", squawk := "1000", registration := "G-ABCD"
    aircraft_type := "A320", operator := "TEST AIR", lat := 1, lon := 2
    distance_km := 5, altitude_ft := 30000, vert_rate_fpm := 0
    ground_speed_kts := 400, track_deg := 90, bearing_deg := 45 }

/-- A degenerate distance/bearing function for concrete instances. -/
def Dzero : ℚ → ℚ → ℚ → ℚ → ℚ := fun _ _ _ _ => 0

/-- A distance function returning the entry latitude, for concrete instances
where the distances 50, 3, 3 of the spec's tie-break example are wanted. -/
def Dsel : ℚ → ℚ → ℚ → ℚ → ℚ := fun _ _ la _ => la

/-- Feed entry at distance 50 under `Dsel`. -/
def eFar : JsonEntry :=
  { lat := some 50, lon := some 0, flight := some "FAR01", hex := some "aaaaaa"
    squawk := some "1000", alt_baro := some 10000, gs := some 300
    track := some 90, baro_rate := some 0 }

/-- Feed entry at distance 3 under `Dsel`, the first of the tie. -/
def eB : JsonEntry :=
  { lat := some 3, lon := some 0, flight := some "BBB02", hex := some "bbbbbb"
    squawk := some "2000", alt_baro := some 20000, gs := some 350
    track := some 180, baro_rate := some 64 }

/-- Feed entry at distance 3 under `Dsel`, the second of the tie. -/
def eC : JsonEntry :=
  { lat := some 3, lon := some 0, flight := some "CCC03", hex := some "cccccc"
    squawk := some "3000", alt_baro := some 25000, gs := some 360
    track := some 270, baro_rate := some (-64) }

/-- Feed entry with no numeric latitude. -/
def eNoLat : JsonEntry :=
  { lat := none, lon := some 1, flight := some "NOLAT", hex := some "dddddd"
    squawk := none, alt_baro := some 5000, gs := some 200
    track := some 10, baro_rate := some 0 }

/-- The function `deg2rad` of line 493, over exact reals. -/
noncomputable def deg2rad (deg : ℝ) : ℝ := deg * Real.pi / 180

/-- C's `atan2(y, x)`: the argument of the complex number `x + y·i`, with
values in `(-π, π]` and `atan2 0 0 = 0`. -/
noncomputable def atan2 (y x : ℝ) : ℝ := Complex.arg ⟨x, y⟩

/-- Truncation toward zero on ℝ, the rounding C's `fmod` applies to the
quotient. -/
noncomputable def truncR (r : ℝ) : ℤ := if 0 ≤ r then ⌊r⌋ else ⌈r⌉

/-- C's `fmod(x, y)`: exactly `x - trunc(x / y) * y`. -/
noncomputable def fmodR (x y : ℝ) : ℝ := x - y * truncR (x / y)

/-- The function `haversine_distance` of lines 507–513, over exact reals,
with `EARTH_RADIUS_KM = 6371.0` and `c = 2 * atan2(sqrt(a), sqrt(1 - a))`. -/
noncomputable def haversine_distance (lat1 lon1 lat2 lon2 : ℝ) : ℝ :=
  let dLat := deg2rad (lat2 - lat1)
  let dLon := deg2rad (lon2 - lon1)
  let a := Real.sin (dLat / 2) * Real.sin (dLat / 2) +
    Real.cos (deg2rad lat1) * Real.cos (deg2rad lat2) *
      Real.sin (dLon / 2) * Real.sin (dLon / 2)
  let c := 2 * atan2 (Real.sqrt a) (Real.sqrt (1 - a))
  6371 * c

/-- The function `calculate_bearing` of lines 519–528, over exact reals:
`fmod(atan2(y, x) * 180 / π + 360, 360)`. -/
noncomputable def calculate_bearing (lat1 lon1 lat2 lon2 : ℝ) : ℝ :=
  let lon_diff := deg2rad (lon2 - lon1)
  let rlat1 := deg2rad lat1
  let rlat2 := deg2rad lat2
  let y := Real.sin lon_diff * Real.cos rlat2
  let x := Real.cos rlat1 * Real.sin rlat2 -
    Real.sin rlat1 * Real.cos rlat2 * Real.cos lon_diff
  fmodR (atan2 y x * 180 / Real.pi + 360) 360

/-- The running minimum after folding the scan over a feed equals the
`min`-fold of the valid entries' distances. -/
theorem scan_dist_eq (ulat ulon : ℚ) (D B : ℚ → ℚ → ℚ → ℚ → ℚ) (l : List JsonEntry) :
    ∀ (a : Aircraft) (f : Bool),
      ((l.foldl (scanStep ulat ulon D B) (a, f)).1).distance_km
        = (scanDists ulat ulon D l).foldl min a.distance_km := by
  induction l with
  | nil => intro a f; rfl
  | cons e t ih =>
    intro a f
    rcases hla : e.lat with _ | la
    · have hstep : scanStep ulat ulon D B (a, f) e = (a, f) := by
        simp [scanStep, hla]
      have hd : entryDist ulat ulon D e = none := by simp [entryDist, hla]
      simpa [scanDists, List.filterMap_cons, hd, hstep] using ih a f
    · rcases hlo : e.lon with _ | lo
      · have hstep : scanStep ulat ulon D B (a, f) e = (a, f) := by
          simp [scanStep, hla, hlo]
        have hd : entryDist ulat ulon D e = none := by simp [entryDist, hla, hlo]
        simpa [scanDists, List.filterMap_cons, hd, hstep] using ih a f
      · have hd : entryDist ulat ulon D e = some (D ulat ulon la lo) := by
          simp [entryDist, hla, hlo]
        by_cases hlt : D ulat ulon la lo < a.distance_km
        · have hstep : scanStep ulat ulon D B (a, f) e
              = (scanUpdate ulat ulon D B a e la lo, true) := by
            simp [scanStep, hla, hlo, hlt]
          have hmin : min a.distance_km (D ulat ulon la lo) = D ulat ulon la lo :=
            min_eq_right hlt.le
          have hupd : (scanUpdate ulat ulon D B a e la lo).distance_km
              = D ulat ulon la lo := rfl
          simpa [scanDists, List.filterMap_cons, hd, hstep, hmin, hupd]
            using ih (scanUpdate ulat ulon D B a e la lo) true
        · have hstep : scanStep ulat ulon D B (a, f) e = (a, f) := by
            simp [scanStep, hla, hlo, hlt]
          have hmin : min a.distance_km (D ulat ulon la lo) = a.distance_km :=
            min_eq_left (not_lt.mp hlt)
          simpa [scanDists, List.filterMap_cons, hd, hstep, hmin] using ih a f

/-- The `plane_found` flag after the scan is set exactly when some valid
entry's distance is strictly below the initial running minimum. -/
theorem scan_found_eq (ulat ulon : ℚ) (D B : ℚ → ℚ → ℚ → ℚ → ℚ) (l : List JsonEntry) :
    ∀ (a : Aircraft) (f : Bool),
      (l.foldl (scanStep ulat ulon D B) (a, f)).2
        = (f || (scanDists ulat ulon D l).any fun d => decide (d < a.distance_km)) := by
  induction l with
  | nil => intro a f; simp [scanDists]
  | cons e t ih =>
    intro a f
    rcases hla : e.lat with _ | la
    · have hstep : scanStep ulat ulon D B (a, f) e = (a, f) := by
        simp [scanStep, hla]
      have hd : entryDist ulat ulon D e = none := by simp [entryDist, hla]
      simpa [scanDists, List.filterMap_cons, hd, hstep] using ih a f
    · rcases hlo : e.lon with _ | lo
      · have hstep : scanStep ulat ulon D B (a, f) e = (a, f) := by
          simp [scanStep, hla, hlo]
        have hd : entryDist ulat ulon D e = none := by simp [entryDist, hla, hlo]
        simpa [scanDists, List.filterMap_cons, hd, hstep] using ih a f
      · have hd : entryDist ulat ulon D e = some (D ulat ulon la lo) := by
          simp [entryDist, hla, hlo]
        by_cases hlt : D ulat ulon la lo < a.distance_km
        · have hstep : scanStep ulat ulon D B (a, f) e
              = (scanUpdate ulat ulon D B a e la lo, true) := by
            simp [scanStep, hla, hlo, hlt]
          simp [scanDists, List.filterMap_cons, hd, hstep, hlt,
            ih (scanUpdate ulat ulon D B a e la lo) true]
        · have hstep : scanStep ulat ulon D B (a, f) e = (a, f) := by
            simp [scanStep, hla, hlo, hlt]
          simpa [scanDists, List.filterMap_cons, hd, hstep, hlt] using ih a f

/-- If every valid entry of the feed is at least as far as the accumulator's
running minimum, the strict comparison never fires and the scan leaves the
accumulator unchanged. -/
theorem scan_no_update (ulat ulon : ℚ) (D B : ℚ → ℚ → ℚ → ℚ → ℚ) (l : List JsonEntry) :
    ∀ acc : Aircraft × Bool,
      (∀ d ∈ scanDists ulat ulon D l, acc.1.distance_km ≤ d) →
      l.foldl (scanStep ulat ulon D B) acc = acc := by
  induction l with
  | nil => intro acc _; rfl
  | cons e t ih =>
    intro acc h
    rcases hla : e.lat with _ | la
    · have hstep : scanStep ulat ulon D B acc e = acc := by
        cases acc; simp [scanStep, hla]
      have hd : entryDist ulat ulon D e = none := by simp [entryDist, hla]
      rw [List.foldl_cons, hstep]
      exact ih acc (by
        intro d hdm
        exact h d (by simpa [scanDists, List.filterMap_cons, hd] using hdm))
    · rcases hlo : e.lon with _ | lo
      · have hstep : scanStep ulat ulon D B acc e = acc := by
          cases acc; simp [scanStep, hla, hlo]
        have hd : entryDist ulat ulon D e = none := by simp [entryDist, hla, hlo]
        rw [List.foldl_cons, hstep]
        exact ih acc (by
          intro d hdm
          exact h d (by simpa [scanDists, List.filterMap_cons, hd] using hdm))
      · have hd : entryDist ulat ulon D e = some (D ulat ulon la lo) := by
          simp [entryDist, hla, hlo]
        have hmem : D ulat ulon la lo ∈ scanDists ulat ulon D (e :: t) := by
          simp [scanDists, List.filterMap_cons, hd]
        have hle : acc.1.distance_km ≤ D ulat ulon la lo := h _ hmem
        have hstep : scanStep ulat ulon D B acc e = acc := by
          cases acc; simp [scanStep, hla, hlo, not_lt.mpr hle]
        rw [List.foldl_cons, hstep]
        exact ih acc (by
          intro d hdm
          apply h d
          simp only [scanDists, List.filterMap_cons, hd]
          exact List.mem_cons_of_mem _ hdm)

/-- Entries without both coordinates are invisible to the scan: folding over
a feed equals folding over its coordinate-bearing entries only. -/
theorem scan_skip_invalid (ulat ulon : ℚ) (D B : ℚ → ℚ → ℚ → ℚ → ℚ) (l : List JsonEntry) :
    ∀ acc : Aircraft × Bool,
      l.foldl (scanStep ulat ulon D B) acc
        = (l.filter fun e => e.lat.isSome && e.lon.isSome).foldl
            (scanStep ulat ulon D B) acc := by
  induction l with
  | nil => intro acc; rfl
  | cons e t ih =>
    intro acc
    rcases hla : e.lat with _ | la
    · have hstep : scanStep ulat ulon D B acc e = acc := by
        cases acc; simp [scanStep, hla]
      simp [List.foldl_cons, hstep, List.filter_cons, hla, ih acc]
    · rcases hlo : e.lon with _ | lo
      · have hstep : scanStep ulat ulon D B acc e = acc := by
          cases acc; simp [scanStep, hla, hlo]
        simp [List.foldl_cons, hstep, List.filter_cons, hla, hlo, ih acc]
      · simp [List.foldl_cons, List.filter_cons, hla, hlo,
          ih (scanStep ulat ulon D B acc e)]

/-- A `min`-fold is a lower bound of its list. -/
theorem foldl_min_le_mem (L : List ℚ) :
    ∀ (a x : ℚ), x ∈ L → L.foldl min a ≤ x := by
  induction L with
  | nil => intro a x hx; cases hx
  | cons y t ih =>
    intro a x hx
    rcases List.mem_cons.mp hx with h | h
    · subst h
      calc t.foldl min (min a x) ≤ min a x := by
            clear ih hx
            induction t generalizing a x with
            | nil => exact le_rfl
            | cons z s ihs =>
                calc (z :: s).foldl min (min a x) = s.foldl min (min (min a x) z) := rfl
                  _ ≤ min (min a x) z := ihs _ _
                  _ ≤ min a x := min_le_left _ _
        _ ≤ x := min_le_right _ _
    · exact ih _ _ h

/-- A `min`-fold never exceeds its seed. -/
theorem foldl_min_le_init (L : List ℚ) : ∀ a : ℚ, L.foldl min a ≤ a := by
  induction L with
  | nil => intro a; exact le_rfl
  | cons y t ih =>
    intro a
    calc (y :: t).foldl min a = t.foldl min (min a y) := rfl
      _ ≤ min a y := ih _
      _ ≤ a := min_le_left _ _

/-- A `min`-fold is its seed or a member of its list. -/
theorem foldl_min_mem_or (L : List ℚ) :
    ∀ a : ℚ, L.foldl min a = a ∨ L.foldl min a ∈ L := by
  induction L with
  | nil => intro a; exact Or.inl rfl
  | cons y t ih =>
    intro a
    rcases ih (min a y) with h | h
    · rcases le_total a y with hay | hya
      · exact Or.inl (by simpa [min_eq_left hay] using h)
      · exact Or.inr (by
          simp only [List.mem_cons]
          exact Or.inl (by simpa [min_eq_right hya] using h))
    · exact Or.inr (List.mem_cons_of_mem _ h)

set_option maxRecDepth 4000 in
/-- The enrichment writes only touch the metadata fields. -/
theorem applyEnrich_posFields (enrich : EnrichResult) (s : Aircraft) :
    posFields (applyEnrich enrich s) = posFields s := by
  cases enrich with
  | fail => rfl
  | noMatch => rfl
  | found r t o =>
      rcases r with _ | x <;> rcases t with _ | y <;> rcases o with _ | z <;>
        simp [applyEnrich, posFields]

/-- On a cycle that found a plane, the published position/telemetry fields
are exactly those of the scan's minimum-holder. -/
theorem publish_posFields (ulat ulon : ℚ) (D B : ℚ → ℚ → ℚ → ℚ → ℚ)
    (enrich : EnrichResult) (prev : Aircraft) (l : List JsonEntry)
    (h : (l.foldl (scanStep ulat ulon D B) (initialClosest, false)).2 = true) :
    posFields (fetch_and_process_data ulat ulon D B (FeedResult.entries l) enrich prev)
      = posFields (l.foldl (scanStep ulat ulon D B) (initialClosest, false)).1 := by
  have hmeta : posFields
      { (l.foldl (scanStep ulat ulon D B) (initialClosest, false)).1 with
        registration := "N/A", aircraft_type := "N/A", operator := "N/A" }
      = posFields (l.foldl (scanStep ulat ulon D B) (initialClosest, false)).1 := rfl
  simp only [fetch_and_process_data, h, if_true, applyEnrich_posFields, hmeta]

/-- C1: after a successful refresh cycle whose feed contained at least one
entry with valid numeric latitude and longitude (and whose distances are
below the 999999.9 seed — true of `haversine_distance`, which is bounded by
`2π·6371`, see `haversine_distance_lt_sentinel`), the published state's
`distance_km` is the minimum of the distances of the valid entries. -/
theorem C1_distance_is_min (ulat ulon : ℚ) (D B : ℚ → ℚ → ℚ → ℚ → ℚ)
    (enrich : EnrichResult) (prev : Aircraft) (l : List JsonEntry)
    (hvalid : scanDists ulat ulon D l ≠ [])
    (hbound : ∀ d ∈ scanDists ulat ulon D l, d < sentinelDist) :
    (fetch_and_process_data ulat ulon D B (FeedResult.entries l) enrich prev).distance_km
        ∈ scanDists ulat ulon D l
    ∧ ∀ d ∈ scanDists ulat ulon D l,
        (fetch_and_process_data ulat ulon D B (FeedResult.entries l)
            enrich prev).distance_km ≤ d := by
  obtain ⟨d0, hd0⟩ := List.exists_mem_of_ne_nil _ hvalid
  have hfound : (l.foldl (scanStep ulat ulon D B) (initialClosest, false)).2 = true := by
    rw [scan_found_eq]
    simp only [Bool.false_or, List.any_eq_true]
    exact ⟨d0, hd0, decide_eq_true (hbound d0 hd0)⟩
  have hpf := publish_posFields ulat ulon D B enrich prev l hfound
  have hdist : (fetch_and_process_data ulat ulon D B (FeedResult.entries l)
      enrich prev).distance_km
      = ((l.foldl (scanStep ulat ulon D B) (initialClosest, false)).1).distance_km := by
    simpa [posFields] using congrArg (fun p => p.2.2.1) hpf
  have hmin : ((l.foldl (scanStep ulat ulon D B) (initialClosest, false)).1).distance_km
      = (scanDists ulat ulon D l).foldl min sentinelDist :=
    scan_dist_eq ulat ulon D B l initialClosest false
  constructor
  · rcases foldl_min_mem_or (scanDists ulat ulon D l) sentinelDist with h | h
    · exfalso
      have hle := foldl_min_le_mem (scanDists ulat ulon D l) sentinelDist d0 hd0
      rw [h] at hle
      exact absurd (hbound d0 hd0) (not_lt.mpr hle)
    · rw [hdist, hmin]; exact h
  · intro d hd
    rw [hdist, hmin]
    exact foldl_min_le_mem _ _ _ hd

/-- Closed instance of `C1_distance_is_min` on a concrete three-entry feed. -/
theorem C1_distance_is_min_witness :
    (fetch_and_process_data 0 0 Dsel Dzero (FeedResult.entries [eFar, eB, eC])
        EnrichResult.fail prev0).distance_km ∈ scanDists 0 0 Dsel [eFar, eB, eC]
    ∧ ∀ d ∈ scanDists 0 0 Dsel [eFar, eB, eC],
        (fetch_and_process_data 0 0 Dsel Dzero (FeedResult.entries [eFar, eB, eC])
            EnrichResult.fail prev0).distance_km ≤ d :=
  C1_distance_is_min 0 0 Dsel Dzero EnrichResult.fail prev0 [eFar, eB, eC]
    (by simp [scanDists, entryDist, eFar, eB, eC, Dsel])
    (by
      norm_num [scanDists, entryDist, eFar, eB, eC, Dsel, sentinelDist]
      rintro d (rfl | rfl) <;> norm_num)

/-- C2: the strictly-less-than comparison of the scan selects the first
entry that attains the minimum distance; later equal-distance entries do not
displace it.  `e0` is the first entry at distance `D ulat ulon la lo`: every
valid entry before it is strictly farther, every valid entry after it is at
least as far. -/
theorem C2_first_min_wins (ulat ulon : ℚ) (D B : ℚ → ℚ → ℚ → ℚ → ℚ)
    (enrich : EnrichResult) (prev : Aircraft)
    (l1 l2 : List JsonEntry) (e0 : JsonEntry) (la lo : ℚ)
    (hla : e0.lat = some la) (hlo : e0.lon = some lo)
    (hsent : D ulat ulon la lo < sentinelDist)
    (hbefore : ∀ d ∈ scanDists ulat ulon D l1, D ulat ulon la lo < d)
    (hafter : ∀ d ∈ scanDists ulat ulon D l2, D ulat ulon la lo ≤ d) :
    posFields (fetch_and_process_data ulat ulon D B
        (FeedResult.entries (l1 ++ e0 :: l2)) enrich prev)
      = posFields (scanUpdate ulat ulon D B initialClosest e0 la lo) := by
  have hacc1 : ∃ acc1, acc1 = l1.foldl (scanStep ulat ulon D B) (initialClosest, false) :=
    ⟨_, rfl⟩
  obtain ⟨acc1, hacc1⟩ := hacc1
  have hgt : D ulat ulon la lo < acc1.1.distance_km := by
    have hdq : acc1.1.distance_km = (scanDists ulat ulon D l1).foldl min sentinelDist := by
      rw [hacc1]; exact scan_dist_eq ulat ulon D B l1 initialClosest false
    rcases foldl_min_mem_or (scanDists ulat ulon D l1) sentinelDist with h | h
    · rw [hdq, h]; exact hsent
    · rw [hdq]; exact hbefore _ h
  have hstep : scanStep ulat ulon D B acc1 e0
      = (scanUpdate ulat ulon D B acc1.1 e0 la lo, true) := by
    simp [scanStep, hla, hlo, hgt]
  have hfold : (l1 ++ e0 :: l2).foldl (scanStep ulat ulon D B) (initialClosest, false)
      = (scanUpdate ulat ulon D B acc1.1 e0 la lo, true) := by
    rw [List.foldl_append, List.foldl_cons, ← hacc1, hstep]
    exact scan_no_update ulat ulon D B l2 _ (fun d hd => hafter d hd)
  have hfound : ((l1 ++ e0 :: l2).foldl (scanStep ulat ulon D B)
      (initialClosest, false)).2 = true := by rw [hfold]
  have hpp := publish_posFields ulat ulon D B enrich prev (l1 ++ e0 :: l2) hfound
  rw [hpp, hfold]
  rfl

/-- Closed instance of `C2_first_min_wins`: the spec's 50 km, 3 km, 3 km
example, in which the first 3 km entry (`eB`) wins the tie. -/
theorem C2_first_min_wins_witness :
    posFields (fetch_and_process_data 0 0 Dsel Dzero
        (FeedResult.entries ([eFar] ++ eB :: [eC])) EnrichResult.fail prev0)
      = posFields (scanUpdate 0 0 Dsel Dzero initialClosest eB 3 0) :=
  C2_first_min_wins 0 0 Dsel Dzero EnrichResult.fail prev0 [eFar] [eC] eB 3 0
    rfl rfl (by norm_num [Dsel, sentinelDist])
    (by norm_num [scanDists, entryDist, eFar, Dsel])
    (by norm_num [scanDists, entryDist, eC, Dsel])

/-- C3: a primary-feed fetch failure (transport error, timeout or empty
body, `res != CURLE_OK || chunk.size == 0`) aborts the cycle and leaves the
previously published state entirely unchanged. -/
theorem C3_fetch_failure_preserves_state (ulat ulon : ℚ) (D B : ℚ → ℚ → ℚ → ℚ → ℚ)
    (enrich : EnrichResult) (prev : Aircraft) :
    fetch_and_process_data ulat ulon D B FeedResult.fetchFail enrich prev = prev := rfl

/-- C4 counterexample: on a payload that parses but whose `aircraft` member
is absent or not an array, the code skips the whole processing block and
leaves the previous state in place — it does not publish the
"no aircraft found" state, contrary to the claim. -/
theorem C4_counterexample :
    fetch_and_process_data 0 0 Dzero Dzero FeedResult.noArray EnrichResult.fail prev0 = prev0
    ∧ fetch_and_process_data 0 0 Dzero Dzero FeedResult.noArray EnrichResult.fail prev0
        ≠ noAircraftReset prev0 := by
  refine ⟨rfl, fun h => ?_⟩
  have hf : ("ABC123" : String) = "No aircraft in range" := congrArg Aircraft.flight h
  exact absurd hf (by decide)

/-- C4 amended: for every feed payload that parses as JSON but whose
top-level `aircraft` field is absent or not an array, the cycle performs no
publish at all and the previously published state is left unchanged. -/
theorem C4_no_array_preserves_state (ulat ulon : ℚ) (D B : ℚ → ℚ → ℚ → ℚ → ℚ)
    (enrich : EnrichResult) (prev : Aircraft) :
    fetch_and_process_data ulat ulon D B FeedResult.noArray enrich prev = prev := rfl

/-- C5: entries lacking a valid numeric latitude or longitude are excluded
from the scan entirely (the cycle's result equals the result on the feed
filtered to its coordinate-bearing entries), and if no entry has valid
coordinates the cycle publishes the "no aircraft found" state with
`distance_km` reset to the sentinel. -/
theorem C5_invalid_entries_excluded (ulat ulon : ℚ) (D B : ℚ → ℚ → ℚ → ℚ → ℚ)
    (enrich : EnrichResult) (prev : Aircraft) (l : List JsonEntry) :
    fetch_and_process_data ulat ulon D B (FeedResult.entries l) enrich prev
      = fetch_and_process_data ulat ulon D B
          (FeedResult.entries (l.filter fun e => e.lat.isSome && e.lon.isSome)) enrich prev
    ∧ ((∀ e ∈ l, (e.lat.isSome && e.lon.isSome) = false) →
        fetch_and_process_data ulat ulon D B (FeedResult.entries l) enrich prev
          = noAircraftReset prev) := by
  constructor
  · simp only [fetch_and_process_data,
      scan_skip_invalid ulat ulon D B l (initialClosest, false)]
  · intro h
    have hfe : l.filter (fun e => e.lat.isSome && e.lon.isSome) = [] := by
      rw [List.filter_eq_nil_iff]
      intro e he
      simp [h e he]
    have hscan : l.foldl (scanStep ulat ulon D B) (initialClosest, false)
        = (initialClosest, false) := by
      rw [scan_skip_invalid ulat ulon D B l, hfe]
      rfl
    simp only [fetch_and_process_data, hscan]
    rfl

/-- Closed instance of `C5_invalid_entries_excluded`: a one-entry feed whose
entry lacks `lat` yields the "no aircraft found" reset. -/
theorem C5_invalid_entries_excluded_witness :
    fetch_and_process_data 0 0 Dzero Dzero (FeedResult.entries [eNoLat])
        EnrichResult.fail prev0 = noAircraftReset prev0 :=
  (C5_invalid_entries_excluded 0 0 Dzero Dzero EnrichResult.fail prev0 [eNoLat]).2
    (by simp [eNoLat])

/-- C6: when a plane was selected but the enrichment fails in any way
(network error or unparsable response is `fail`; absent, non-array or empty
`ac` is `noMatch`), the published state is exactly the selected snapshot with
the three metadata fields left at the `"N/A"` defaults of lines 441–443. -/
theorem C6_enrichment_failure_defaults (ulat ulon : ℚ) (D B : ℚ → ℚ → ℚ → ℚ → ℚ)
    (enrich : EnrichResult) (prev : Aircraft) (l : List JsonEntry)
    (hfound : (l.foldl (scanStep ulat ulon D B) (initialClosest, false)).2 = true)
    (hfail : enrich = EnrichResult.fail ∨ enrich = EnrichResult.noMatch) :
    fetch_and_process_data ulat ulon D B (FeedResult.entries l) enrich prev
      = { (l.foldl (scanStep ulat ulon D B) (initialClosest, false)).1 with
          registration := "N/A", aircraft_type := "N/A", operator := "N/A" } := by
  rcases hfail with h | h <;> subst h <;>
    simp only [fetch_and_process_data, hfound, if_true, applyEnrich]

/-- Closed instance of `C6_enrichment_failure_defaults` on a one-entry feed
with a failing enrichment fetch. -/
theorem C6_enrichment_failure_defaults_witness :
    fetch_and_process_data 0 0 Dsel Dzero (FeedResult.entries [eB])
        EnrichResult.fail prev0
      = { ([eB].foldl (scanStep 0 0 Dsel Dzero) (initialClosest, false)).1 with
          registration := "N/A", aircraft_type := "N/A", operator := "N/A" } :=
  C6_enrichment_failure_defaults 0 0 Dsel Dzero EnrichResult.fail prev0 [eB]
    (by norm_num [scanStep, scanUpdate, initialClosest, eB, Dsel, sentinelDist])
    (Or.inl rfl)

/-- C10: the "no aircraft found" publish overwrites only the six text fields
and `distance_km`; `lat`, `lon`, `altitude_ft`, `vert_rate_fpm`,
`ground_speed_kts`, `track_deg` and `bearing_deg` all keep the values of the
previously published state. -/
theorem C10_no_aircraft_frame (ulat ulon : ℚ) (D B : ℚ → ℚ → ℚ → ℚ → ℚ)
    (enrich : EnrichResult) (prev : Aircraft) (l : List JsonEntry)
    (hnone : (l.foldl (scanStep ulat ulon D B) (initialClosest, false)).2 = false) :
    let r := fetch_and_process_data ulat ulon D B (FeedResult.entries l) enrich prev
    (r.lat, r.lon, r.altitude_ft, r.vert_rate_fpm, r.ground_speed_kts,
        r.track_deg, r.bearing_deg)
      = (prev.lat, prev.lon, prev.altitude_ft, prev.vert_rate_fpm,
        prev.ground_speed_kts, prev.track_deg, prev.bearing_deg)
    ∧ (r.flight, r.operator, r.registration, r.aircraft_type, r.hex, r.squawk,
        r.distance_km)
      = ("No aircraft in range", " ", " ", " ", " ", " ", sentinelDist) := by
  intro r
  have hr : r = noAircraftReset prev := by
    simp only [r, fetch_and_process_data, hnone]
    rfl
  rw [hr]
  exact ⟨rfl, rfl⟩

/-- Closed instance of `C10_no_aircraft_frame` on the empty feed. -/
theorem C10_no_aircraft_frame_witness :
    let r := fetch_and_process_data 0 0 Dzero Dzero (FeedResult.entries [])
        EnrichResult.fail prev0
    (r.lat, r.lon, r.altitude_ft, r.vert_rate_fpm, r.ground_speed_kts,
        r.track_deg, r.bearing_deg)
      = (prev0.lat, prev0.lon, prev0.altitude_ft, prev0.vert_rate_fpm,
        prev0.ground_speed_kts, prev0.track_deg, prev0.bearing_deg)
    ∧ (r.flight, r.operator, r.registration, r.aircraft_type, r.hex, r.squawk,
        r.distance_km)
      = ("No aircraft in range", " ", " ", " ", " ", " ", sentinelDist) :=
  C10_no_aircraft_frame 0 0 Dzero Dzero EnrichResult.fail prev0 [] rfl

/-- C7 counterexample: the shared state is not replaced wholesale.  On a
cycle with an empty `aircraft` array, the first of the seven field-level
writes of lines 473–479 leaves the cell holding a record that is neither the
previous state nor the final published state. -/
theorem C7_counterexample :
    ∃ w ∈ cycleWrites 0 0 Dzero Dzero (FeedResult.entries []) EnrichResult.fail prev0,
      w ≠ prev0
      ∧ w ≠ fetch_and_process_data 0 0 Dzero Dzero (FeedResult.entries [])
          EnrichResult.fail prev0 := by
  refine ⟨{ prev0 with flight := "No aircraft in range" }, ?_, ?_, ?_⟩
  · show _ ∈ cycleWrites 0 0 Dzero Dzero (FeedResult.entries []) EnrichResult.fail prev0
    exact List.mem_cons_self _ _
  · intro h
    have hf : ("No aircraft in range" : String) = "ABC123" := congrArg Aircraft.flight h
    exact absurd hf (by decide)
  · intro h
    have ho : ("TEST AIR" : String) = " " := congrArg Aircraft.operator h
    exact absurd ho (by decide)

/-- C7 amended: the cycle updates the shared cell through a sequence of
field-level writes, not one wholesale replacement; the value left in the
cell after the last write of the sequence is exactly the produced
`ClosestAircraftState` (and a cycle that publishes nothing performs no
write).  The program is single-threaded — `fetch_and_process_data` runs on
the render thread — so no reader can observe the intermediate values. -/
theorem C7_final_write_is_published_state (ulat ulon : ℚ) (D B : ℚ → ℚ → ℚ → ℚ → ℚ)
    (feed : FeedResult) (enrich : EnrichResult) (prev : Aircraft) :
    lastD (cycleWrites ulat ulon D B feed enrich prev) prev
      = fetch_and_process_data ulat ulon D B feed enrich prev := by
  cases feed with
  | fetchFail => rfl
  | parseFail => rfl
  | noArray => rfl
  | entries l =>
    by_cases h : (l.foldl (scanStep ulat ulon D B) (initialClosest, false)).2 = true
    · cases enrich with
      | fail => simp [cycleWrites, fetch_and_process_data, h, enrichWrites, applyEnrich, lastD]
      | noMatch => simp [cycleWrites, fetch_and_process_data, h, enrichWrites, applyEnrich, lastD]
      | found r t o =>
          rcases r with _ | x <;> rcases t with _ | y <;> rcases o with _ | z <;>
            simp [cycleWrites, fetch_and_process_data, h, enrichWrites, applyEnrich, lastD]
    · have h' : (l.foldl (scanStep ulat ulon D B) (initialClosest, false)).2 = false :=
        Bool.not_eq_true _ ▸ eq_false_of_ne_true h
      simp [cycleWrites, fetch_and_process_data, h', resetWrites, noAircraftReset, lastD]

/-- C9: `track_to_direction` maps every (nonnegative) heading to one of the
16 compass points by dividing by 22.5, rounding to nearest via the
`(int)(x + 0.5)` idiom, and taking `% 16`; in particular 0 ↦ N, 360 ↦ N,
90 ↦ E and 348.75 ↦ N (the wraparound case where rounding yields 16). -/
theorem C9_compass_label :
    (∀ t : ℚ, 0 ≤ t → track_to_direction t ∈ directions)
    ∧ track_to_direction 0 = "N"
    ∧ track_to_direction 360 = "N"
    ∧ track_to_direction 90 = "E"
    ∧ track_to_direction (1395 / 4) = "N" := by
  refine ⟨?_, ?_, ?_, ?_, ?_⟩
  · intro t ht
    have hq : (0:ℚ) ≤ t / (45/2) + 1/2 := by positivity
    have hfl : (0:ℤ) ≤ ⌊t / (45/2) + 1/2⌋ := Int.floor_nonneg.mpr hq
    have htr : qtrunc (t / (45/2) + 1/2) = ⌊t / (45/2) + 1/2⌋ := by
      rw [qtrunc, if_pos hq]
    have h0 : (0:ℤ) ≤ (⌊t / (45/2) + 1/2⌋).tmod 16 := Int.tmod_nonneg _ hfl
    have h16 : (⌊t / (45/2) + 1/2⌋).tmod 16 < 16 := Int.tmod_lt_of_pos _ (by norm_num)
    have hlt : ((⌊t / (45/2) + 1/2⌋).tmod 16).toNat < directions.length := by
      have h : ((⌊t / (45/2) + 1/2⌋).tmod 16).toNat < 16 := by omega
      simpa [directions] using h
    unfold track_to_direction
    rw [htr, List.getD_eq_getElem directions "N" hlt]
    exact List.getElem_mem hlt
  · have h : qtrunc ((0:ℚ) / (45/2) + 1/2) = 0 := by
      rw [qtrunc, if_pos (by norm_num : (0:ℚ) ≤ 0 / (45/2) + 1/2)]
      norm_num
    unfold track_to_direction
    rw [h]
    rfl
  · have h : qtrunc ((360:ℚ) / (45/2) + 1/2) = 16 := by
      rw [qtrunc, if_pos (by norm_num : (0:ℚ) ≤ 360 / (45/2) + 1/2)]
      norm_num
    unfold track_to_direction
    rw [h]
    rfl
  · have h : qtrunc ((90:ℚ) / (45/2) + 1/2) = 4 := by
      rw [qtrunc, if_pos (by norm_num : (0:ℚ) ≤ 90 / (45/2) + 1/2)]
      norm_num
    unfold track_to_direction
    rw [h]
    rfl
  · have h : qtrunc ((1395/4:ℚ) / (45/2) + 1/2) = 16 := by
      rw [qtrunc, if_pos (by norm_num : (0:ℚ) ≤ (1395/4:ℚ) / (45/2) + 1/2)]
      norm_num
    unfold track_to_direction
    rw [h]
    rfl

/-- Closed instance of `C9_compass_label` at the heading 45. -/
theorem C9_compass_label_witness :
    (0:ℚ) ≤ 45 ∧ track_to_direction 45 ∈ directions :=
  ⟨by norm_num, C9_compass_label.1 45 (by norm_num)⟩

/-- C's `fmod` lands in `[0, y)` for a nonnegative dividend and positive
divisor. -/
theorem fmodR_nonneg_lt (x y : ℝ) (hx : 0 ≤ x) (hy : 0 < y) :
    0 ≤ fmodR x y ∧ fmodR x y < y := by
  have hxy : 0 ≤ x / y := div_nonneg hx hy.le
  have htr : truncR (x / y) = ⌊x / y⌋ := by rw [truncR, if_pos hxy]
  have hfm : fmodR x y = y * Int.fract (x / y) := by
    rw [fmodR, htr, Int.fract, mul_sub, mul_div_cancel₀ x hy.ne']
  constructor
  · rw [hfm]
    exact mul_nonneg hy.le (Int.fract_nonneg _)
  · rw [hfm]
    calc y * Int.fract (x / y) < y * 1 := by
          exact mul_lt_mul_of_pos_left (Int.fract_lt_one _) hy
      _ = y := mul_one y

/-- The argument of `fmod` in `calculate_bearing` is nonnegative: the
two-argument arctangent exceeds `-π`, so its degree form exceeds `-180`. -/
theorem atan2_deg_plus_360_nonneg (y x : ℝ) : 0 ≤ atan2 y x * 180 / Real.pi + 360 := by
  have hpi : (0:ℝ) < Real.pi := Real.pi_pos
  have h1 : -Real.pi < atan2 y x := Complex.neg_pi_lt_arg _
  have h3 : (-Real.pi) * (180 / Real.pi) < atan2 y x * (180 / Real.pi) :=
    mul_lt_mul_of_pos_right h1 (by positivity)
  have h4 : (-Real.pi) * (180 / Real.pi) = -180 := by
    field_simp
    ring
  have h5 : atan2 y x * (180 / Real.pi) = atan2 y x * 180 / Real.pi := by ring
  linarith

/-- C8: for all finite inputs, `calculate_bearing` returns a value in
`[0, 360)`: the arctangent result is normalised by adding 360 and taking
`fmod` by 360, which never returns a negative value nor 360 itself. -/
theorem C8_bearing_range (lat1 lon1 lat2 lon2 : ℝ) :
    0 ≤ calculate_bearing lat1 lon1 lat2 lon2
    ∧ calculate_bearing lat1 lon1 lat2 lon2 < 360 :=
  fmodR_nonneg_lt _ 360 (atan2_deg_plus_360_nonneg _ _) (by norm_num)

/-- The product `6371 * (2 * atan2 y x)` is far below the 999999.9 sentinel,
because the arctangent is at most `π`. -/
theorem geodesy_bound (y x : ℝ) : 6371 * (2 * atan2 y x) < 9999999 / 10 := by
  have h : atan2 y x ≤ Real.pi := Complex.arg_le_pi _
  have hpi : Real.pi < 3.15 := Real.pi_lt_d2
  nlinarith

/-- Every haversine distance is below the 999999.9 sentinel that seeds the
running minimum, so the bound hypothesis of `C1_distance_is_min` holds for
the actual distance function of the program. -/
theorem haversine_distance_lt_sentinel (lat1 lon1 lat2 lon2 : ℝ) :
    haversine_distance lat1 lon1 lat2 lon2 < 9999999 / 10 :=
  geodesy_bound _ _
